import Mathlib

/-!
Shallow embedding of the issue/sprint lifecycle slice of the Joey
("Jira-lite") backend, translated from `src/server.js` (base variant),
`src/serverMaster.js` (later variant) and `src/unnamed/part_000`
(enhanced variant with comprehensive cascade deletion).

Modelling conventions:
* JSON collections are Lean lists; a whole-collection write is just the
  new list value.
* Timestamps (ISO date strings produced by `new Date().toISOString()`)
  are modelled as `Nat` milliseconds; string comparison of ISO dates and
  `Date` comparison agree with numeric comparison.  Separate
  `new Date()` calls inside one request handler are modelled by a single
  `now` parameter.
* A nullable field (`null`/`undefined`/absent — indistinguishable to
  every reader in the sources, which test such fields only for JS
  truthiness) is an `Option`.
* A handler that `throw`s before its `write*` calls leaves the stored
  collections untouched; this is modelled by `Except`: an `.error`
  result carries no updated collections (or, for the mid-cascade
  failure in `deleteProjectCompletely`, the partially written store).
-/

set_option autoImplicit false

namespace Joey

/-- Issue record, field-for-field from the `newIssue` object literal of
`src/server.js` POST /api/issues (the `doneAt` key never appears in the
literal; the field starts out absent, i.e. `none`). -/
structure Issue where
  id : String
  projectId : String
  title : String
  description : String
  priority : String
  status : String
  assignee : Option String
  dueDate : Option String
  labels : List String
  parentId : Option String
  sprintId : Option String
  creatorId : String
  doneAt : Option Nat
  createdAt : Nat
  updatedAt : Nat
deriving DecidableEq

/-- Sprint record from the `newSprint` object literal of
`src/server.js` POST /api/projects/:id/sprints. -/
structure Sprint where
  id : String
  projectId : String
  name : String
  startDate : Option Nat
  endDate : Option Nat
  status : String
  createdAt : Nat
  closedAt : Option Nat
deriving DecidableEq

/-- Workflow record `{ projectId, statuses, transitions }` from
`ensureWorkflow`; `transitions` is an unused map, kept as an
association list. -/
structure Workflow where
  projectId : String
  statuses : List String
  transitions : List (String × List String)
deriving DecidableEq

/-- User record from POST /api/register. -/
structure User where
  id : String
  email : String
  passwordHash : String
  role : String
  createdAt : Nat
deriving DecidableEq

/-- Notification record from `sendNotification`. -/
structure Notification where
  id : String
  userId : String
  message : String
  read : Bool
  createdAt : Nat
deriving DecidableEq

/-- Attachment record from `saveAttachment` in `src/unnamed/part_000`
(only the fields the cascade logic reads). -/
structure Attachment where
  id : String
  issueId : String
  filename : String
  originalName : String
  uploadedBy : String
  uploadedAt : Nat
deriving DecidableEq

/-- Project record from POST /api/projects. -/
structure Project where
  id : String
  name : String
  key : String
  ownerId : String
  createdAt : Nat
deriving DecidableEq

/-- Character-list version of "starts with": the first argument begins
with the second. -/
def charsBeginWith : List Char → List Char → Bool
  | _, [] => true
  | [], _ :: _ => false
  | a :: as, b :: bs => a == b && charsBeginWith as bs

/-- Character-list version of "contains as a contiguous run". -/
def charsContain : List Char → List Char → Bool
  | [], needle => charsBeginWith [] needle
  | a :: rest, needle => charsBeginWith (a :: rest) needle || charsContain rest needle

/-- JavaScript `hay.includes(needle)` substring test. -/
def jsIncludes (hay needle : String) : Bool :=
  charsContain hay.toList needle.toList

/-- The default workflow created by `ensureWorkflow` when a project has
none yet: `{ statuses: ['To Do', 'In Progress', 'Done'], transitions: {} }`. -/
def defaultWorkflow (projectId : String) : Workflow :=
  { projectId := projectId
    statuses := ["To Do", "In Progress", "Done"]
    transitions := [] }

/-- `ensureWorkflow(projectId)` (identical in all three source
variants): look the workflow up; if absent, push the default workflow
and persist.  Returns the workflow, the workflows collection as stored
after the call, and whether a collection write happened. -/
def ensureWorkflow (workflows : List Workflow) (projectId : String) :
    Workflow × List Workflow × Bool :=
  match workflows.find? (fun w => w.projectId == projectId) with
  | some wf => (wf, workflows, false)
  | none => (defaultWorkflow projectId, workflows ++ [defaultWorkflow projectId], true)

/-- JavaScript truthiness of a string-or-nullish value (the only falsy
string is the empty one). -/
def jsTruthy : Option String → Bool
  | some s => s != ""
  | none => false

/-- JavaScript `v || null` on a string-or-nullish value. -/
def jsOrNull (v : Option String) : Option String :=
  if jsTruthy v then v else none

/-- Partial update payload of PUT /api/issues/:id.  The outer `Option`
is `hasOwnProperty` presence; for nullable slots the inner `Option` is
the payload value with every JS falsy value collapsed to `none`, as the
handlers themselves do via `body[key] || null`.  `labels` is the
already-normalized array (the array-or-not normalization of the raw
JSON value is orthogonal to the claims below). -/
structure IssueUpdate where
  title : Option String := none
  description : Option String := none
  priority : Option String := none
  status : Option String := none
  assignee : Option (Option String) := none
  dueDate : Option (Option String) := none
  labels : Option (List String) := none
  parentId : Option (Option String) := none
  sprintId : Option (Option String) := none
deriving DecidableEq

/-- Status branch of PUT /api/issues/:id in `src/server.js`
(lines 584-601): validate against the workflow, and on an actual status
change record `doneAt = now` when moving into "Done" and clear it when
moving out of "Done".  The write of a freshly created default workflow
by `ensureWorkflow` is not threaded through here (the branch only reads
`workflow.statuses`). -/
def applyStatusBase (workflows : List Workflow) (i : Issue) (status? : Option String)
    (now : Nat) : Except String Issue :=
  match status? with
  | none => .ok i
  | some newStatus =>
    let (workflow, _, _) := ensureWorkflow workflows i.projectId
    if workflow.statuses.contains newStatus then
      if newStatus ≠ i.status then
        let j := { i with status := newStatus }
        if newStatus = "Done" ∧ i.status ≠ "Done" then .ok { j with doneAt := some now }
        else if i.status = "Done" ∧ newStatus ≠ "Done" then .ok { j with doneAt := none }
        else .ok j
      else .ok i
    else .error "Invalid status"

/-- Status branch of PUT /api/issues/:id in `src/serverMaster.js`
(lines 1084-1095): validate against the workflow and assign the new
status.  This variant never touches `doneAt` (the guard on an actual
change only drives the notification flag; assigning an equal status is
the identity). -/
def applyStatusMaster (workflows : List Workflow) (i : Issue) (status? : Option String) :
    Except String Issue :=
  match status? with
  | none => .ok i
  | some newStatus =>
    let (workflow, _, _) := ensureWorkflow workflows i.projectId
    if workflow.statuses.contains newStatus then .ok { i with status := newStatus }
    else .error "Invalid status"

/-- Assignee branch of PUT /api/issues/:id (identical validation in both
variants): a non-null new assignee must name an existing user.  The
inequality guard in the source only drives the notification flag. -/
def applyAssignee (users : List User) (i : Issue) (assignee? : Option (Option String)) :
    Except String Issue :=
  match assignee? with
  | none => .ok i
  | some (some a) =>
    if users.any (fun u => u.id == a) then .ok { i with assignee := some a }
    else .error "Assignee not found"
  | some none => .ok { i with assignee := none }

/-- SprintId branch of PUT /api/issues/:id in `src/server.js`: a
non-null sprint must exist and belong to the issue's project. -/
def applySprintIdBase (sprints : List Sprint) (i : Issue) (sprintId? : Option (Option String)) :
    Except String Issue :=
  match sprintId? with
  | none => .ok i
  | some (some sid) =>
    match sprints.find? (fun s => s.id == sid) with
    | none => .error "Sprint not found"
    | some sp =>
      if sp.projectId ≠ i.projectId then .error "Sprint does not belong to this project"
      else .ok { i with sprintId := some sid }
  | some none => .ok { i with sprintId := none }

/-- SprintId branch of PUT /api/issues/:id in `src/serverMaster.js`:
the lookup requires id and project to match at once. -/
def applySprintIdMaster (sprints : List Sprint) (i : Issue) (sprintId? : Option (Option String)) :
    Except String Issue :=
  match sprintId? with
  | none => .ok i
  | some (some sid) =>
    if sprints.any (fun s => s.id == sid && s.projectId == i.projectId) then
      .ok { i with sprintId := some sid }
    else .error "Sprint not found"
  | some none => .ok { i with sprintId := none }

/-- ParentId branch of PUT /api/issues/:id in `src/serverMaster.js`: a
non-null parent must be an issue of the same project and not the issue
itself. -/
def applyParentIdMaster (allIssues : List Issue) (i : Issue) (parentId? : Option (Option String)) :
    Except String Issue :=
  match parentId? with
  | none => .ok i
  | some (some p) =>
    if allIssues.any (fun j => j.id == p && j.projectId == i.projectId) then
      if p = i.id then .error "Issue cannot be its own parent"
      else .ok { i with parentId := some p }
    else .error "Parent issue not found"
  | some none => .ok { i with parentId := none }

/-- Unvalidated assignment of the title key (`issue[key] = body[key]`). -/
def setTitle (i : Issue) (t? : Option String) : Issue :=
  match t? with | some t => { i with title := t } | none => i

/-- Unvalidated assignment of the description key. -/
def setDescription (i : Issue) (d? : Option String) : Issue :=
  match d? with | some d => { i with description := d } | none => i

/-- Unvalidated assignment of the priority key. -/
def setPriority (i : Issue) (p? : Option String) : Issue :=
  match p? with | some p => { i with priority := p } | none => i

/-- Unvalidated assignment of the dueDate key. -/
def setDueDate (i : Issue) (d? : Option (Option String)) : Issue :=
  match d? with | some d => { i with dueDate := d } | none => i

/-- Labels key: the handler stores the normalized array. -/
def setLabels (i : Issue) (ls? : Option (List String)) : Issue :=
  match ls? with | some ls => { i with labels := ls } | none => i

/-- Unvalidated assignment of the parentId key (base variant only). -/
def setParentIdRaw (i : Issue) (p? : Option (Option String)) : Issue :=
  match p? with | some p => { i with parentId := p } | none => i

/-- PUT /api/issues/:id of `src/server.js` (lines 575-642), after the
not-found and permission gates: the handler walks the `allowed` keys in
order (title, description, priority, status, assignee, dueDate, labels,
parentId, sprintId — title/description/priority/dueDate/parentId are
assigned without validation), then refreshes `updatedAt`.  A thrown
validation error happens before `writeJson`, so an `.error` result
leaves the stored collection unchanged. -/
def updateIssueBase (workflows : List Workflow) (users : List User) (sprints : List Sprint)
    (issue : Issue) (u : IssueUpdate) (now : Nat) : Except String Issue :=
  let i3 := setPriority (setDescription (setTitle issue u.title) u.description) u.priority
  match applyStatusBase workflows i3 u.status now with
  | .error e => .error e
  | .ok i4 =>
    match applyAssignee users i4 u.assignee with
    | .error e => .error e
    | .ok i5 =>
      let i8 := setParentIdRaw (setLabels (setDueDate i5 u.dueDate) u.labels) u.parentId
      match applySprintIdBase sprints i8 u.sprintId with
      | .error e => .error e
      | .ok i9 => .ok { i9 with updatedAt := now }

/-- PUT /api/issues/:id of `src/serverMaster.js` (lines 1075-1152),
same key walk; this variant validates parentId, uses the combined
sprint lookup, and has no doneAt bookkeeping anywhere in the handler. -/
def updateIssueMaster (workflows : List Workflow) (users : List User) (sprints : List Sprint)
    (allIssues : List Issue) (issue : Issue) (u : IssueUpdate) (now : Nat) :
    Except String Issue :=
  let i3 := setPriority (setDescription (setTitle issue u.title) u.description) u.priority
  match applyStatusMaster workflows i3 u.status with
  | .error e => .error e
  | .ok i4 =>
    match applyAssignee users i4 u.assignee with
    | .error e => .error e
    | .ok i5 =>
      let i7 := setLabels (setDueDate i5 u.dueDate) u.labels
      match applyParentIdMaster allIssues i7 u.parentId with
      | .error e => .error e
      | .ok i8 =>
        match applySprintIdMaster sprints i8 u.sprintId with
        | .error e => .error e
        | .ok i9 => .ok { i9 with updatedAt := now }

/-- Request body of POST /api/issues; string slots keep JS falsy values
(`""` is `some ""`, null/undefined/absent is `none`), `labels` is the
already-parsed array when the payload was an array, `none` otherwise. -/
structure CreateIssueInput where
  projectId : String
  title : String
  description : Option String := none
  priority : Option String := none
  status : Option String := none
  assignee : Option String := none
  dueDate : Option String := none
  labels : Option (List String) := none
  parentId : Option String := none
  sprintId : Option String := none
deriving DecidableEq

/-- Status resolution of POST /api/issues: a truthy supplied status
must be a member of the workflow statuses, a falsy or absent status
defaults to `workflow.statuses[0]` (an out-of-bounds index would be JS
`undefined`; modelled `headD ""` — unreachable, since every persisted
workflow has a non-empty status list). -/
def resolveCreateStatus (workflow : Workflow) (status : Option String) :
    Except String String :=
  match status with
  | some s =>
    if s ≠ "" then
      if workflow.statuses.contains s then .ok s else .error "Invalid status"
    else .ok (workflow.statuses.headD "")
  | none => .ok (workflow.statuses.headD "")

/-- Assignee check of POST /api/issues. -/
def checkCreateAssignee (users : List User) (assignee : Option String) :
    Except String Unit :=
  match jsOrNull assignee with
  | some a => if users.all (fun u => u.id != a) then .error "Assignee not found" else .ok ()
  | none => .ok ()

/-- Parent check of POST /api/issues in `src/server.js` (any existing
issue, no project-match requirement in the base variant). -/
def checkCreateParent (allIssues : List Issue) (parentId : Option String) :
    Except String Unit :=
  match jsOrNull parentId with
  | some p => if allIssues.all (fun j => j.id != p) then .error "Parent issue not found" else .ok ()
  | none => .ok ()

/-- Sprint check of POST /api/issues in `src/server.js`: the sprint
must exist and belong to the issue's project. -/
def checkCreateSprint (sprints : List Sprint) (projectId : String) (sprintId : Option String) :
    Except String Unit :=
  match jsOrNull sprintId with
  | some sid =>
    match sprints.find? (fun sp => sp.id == sid) with
    | none => .error "Sprint not found"
    | some s =>
      if s.projectId ≠ projectId then .error "Sprint does not belong to this project"
      else .ok ()
  | none => .ok ()

/-- POST /api/issues of `src/server.js` (lines 448-542), after the
role gate: required fields, project lookup, `ensureWorkflow`, the
truthiness-guarded status/assignee/parent/sprint validations, then the
new issue literal (which has no `doneAt` key — the field starts out
absent, modelled `none`; `createdAt` and `updatedAt` are two
`new Date()` calls in the same handler, modelled by the shared `now`).
Returns the new issue together with the workflows collection as stored
after the `ensureWorkflow` call.  `src/serverMaster.js` lines 926-992
restrict parent/sprint lookups to the project but share every part of
this logic that the claims below mention. -/
def createIssueBase (projects : List Project) (workflows : List Workflow)
    (users : List User) (allIssues : List Issue) (sprints : List Sprint)
    (input : CreateIssueInput) (creatorId : String) (newId : String) (now : Nat) :
    Except String (Issue × List Workflow) :=
  if input.projectId = "" ∨ input.title = "" then
    .error "projectId and title are required"
  else if projects.all (fun p => p.id != input.projectId) then
    .error "Project not found"
  else
    let (workflow, workflows1, _) := ensureWorkflow workflows input.projectId
    match resolveCreateStatus workflow input.status with
    | .error e => .error e
    | .ok issueStatus =>
      match checkCreateAssignee users input.assignee with
      | .error e => .error e
      | .ok _ =>
        match checkCreateParent allIssues input.parentId with
        | .error e => .error e
        | .ok _ =>
          match checkCreateSprint sprints input.projectId input.sprintId with
          | .error e => .error e
          | .ok _ =>
            .ok ({ id := newId
                   projectId := input.projectId
                   title := input.title
                   description := input.description.getD ""
                   priority := match input.priority with
                     | some p => if p ≠ "" then p else "Medium"
                     | none => "Medium"
                   status := issueStatus
                   assignee := jsOrNull input.assignee
                   dueDate := jsOrNull input.dueDate
                   labels := input.labels.getD []
                   parentId := jsOrNull input.parentId
                   sprintId := jsOrNull input.sprintId
                   creatorId := creatorId
                   doneAt := none
                   createdAt := now
                   updatedAt := now }, workflows1)

/-- Replace the first element satisfying the predicate (JS `find`
returns a reference into the array, so a mutation through it changes
exactly the first match before the whole array is written back). -/
def replaceFirst {α : Type} (p : α → Bool) (v : α) : List α → List α
  | [] => []
  | x :: xs => if p x then v :: xs else x :: replaceFirst p v xs

/-- POST /api/sprints/:id/start of `src/server.js` (lines 834-878),
after the not-found and permission gates: reject a sprint that is
already `active` or `closed`, otherwise mark it `active` and set
`startDate = now` only if it was unset.  Returns the updated sprint and
the sprints collection as written back. -/
def startSprint (sprints : List Sprint) (sprintId : String) (now : Nat) :
    Except String (Sprint × List Sprint) :=
  match sprints.find? (fun sp => sp.id == sprintId) with
  | none => .error "Sprint not found"
  | some sprint =>
    if sprint.status = "active" then .error "Sprint already started"
    else if sprint.status = "closed" then .error "Cannot start a closed sprint"
    else
      let sprint1 := { sprint with
        status := "active"
        startDate := some (sprint.startDate.getD now) }
      .ok (sprint1, replaceFirst (fun sp => sp.id == sprintId) sprint1 sprints)

/-- POST /api/sprints/:id/close of `src/server.js` (lines 887-936),
after the not-found and permission gates: reject an already `closed`
sprint, otherwise mark it `closed`, stamp `closedAt = now`, default
`endDate` to `closedAt` when unset, and clear `sprintId` on every
member issue whose status is not "Done".  `src/unnamed/part_000`
lines 1676-1694 perform the identical state change.  Returns the
updated sprint and both collections as written back. -/
def closeSprint (sprints : List Sprint) (issues : List Issue) (sprintId : String)
    (now : Nat) : Except String (Sprint × List Sprint × List Issue) :=
  match sprints.find? (fun sp => sp.id == sprintId) with
  | none => .error "Sprint not found"
  | some sprint =>
    if sprint.status = "closed" then .error "Sprint already closed"
    else
      let sprint1 := { sprint with
        status := "closed"
        closedAt := some now
        endDate := some (sprint.endDate.getD now) }
      let issues1 := issues.map (fun i =>
        if i.sprintId = some sprintId ∧ i.status ≠ "Done" then { i with sprintId := none }
        else i)
      .ok (sprint1, replaceFirst (fun sp => sp.id == sprintId) sprint1 sprints, issues1)

/-- Result object of `deleteSprintCompletely`. -/
structure DeleteSprintResult where
  sprint : String
  movedIssues : Nat
  deletedNotifications : Nat
deriving DecidableEq

/-- `deleteSprintCompletely(sprintId)` of `src/unnamed/part_000`
(lines 439-488): clear `sprintId` (and refresh `updatedAt`) on every
issue referencing the sprint regardless of its status, drop every
notification whose message contains the sprint's quoted name (the
second `Sprint "..."` test of the source is subsumed by the first but
kept here verbatim), remove the sprint record, and report counts.
Returns the result object and the three collections as written back. -/
def deleteSprintCompletely (sprints : List Sprint) (issues : List Issue)
    (notifications : List Notification) (sprintId : String) (now : Nat) :
    Except String (DeleteSprintResult × List Sprint × List Issue × List Notification) :=
  match sprints.find? (fun s => s.id == sprintId) with
  | none => .error "Sprint not found"
  | some sprint =>
    let issues1 := issues.map (fun i =>
      if i.sprintId = some sprintId then { i with sprintId := none, updatedAt := now }
      else i)
    let movedIssues := (issues.filter (fun i => i.sprintId = some sprintId)).length
    let quoted := "\"" ++ sprint.name ++ "\""
    let notifications1 := notifications.filter (fun n =>
      !(jsIncludes n.message quoted) && !(jsIncludes n.message ("Sprint " ++ quoted)))
    let deletedNotifications := notifications.length - notifications1.length
    let sprints1 := sprints.filter (fun s => s.id != sprintId)
    .ok (⟨sprint.name, movedIssues, deletedNotifications⟩, sprints1, issues1, notifications1)

/-- The stored collections touched by the comprehensive project
deletion of `src/unnamed/part_000`. -/
structure Store where
  projects : List Project
  issues : List Issue
  sprints : List Sprint
  workflows : List Workflow
  notifications : List Notification
  attachments : List Attachment
deriving DecidableEq

/-- Result object of `deleteProjectCompletely`. -/
structure DeleteProjectResult where
  project : String
  deletedIssues : Nat
  deletedSprints : Nat
  deletedAttachments : Nat
  deletedNotifications : Nat
  deletedWorkflows : Nat
deriving DecidableEq

/-- `deleteAttachmentsForIssues(issueIds)` of `src/unnamed/part_000`
(lines 337-358): count and drop the attachments of the given issues
(physical file removal is best-effort and outside the store). -/
def deleteAttachmentsForIssues (issueIds : List String) (attachments : List Attachment) :
    Nat × List Attachment :=
  ((attachments.filter (fun a => issueIds.contains a.issueId)).length,
   attachments.filter (fun a => !(issueIds.contains a.issueId)))

/-- `deleteNotificationsForIssues(issueIds, issuesTitles)` of
`src/unnamed/part_000` (lines 361-376).  The source builds
`issueTitleSet = new Set(issuesTitles)` and then calls
`issueTitleSet.some(...)` inside the filter callback — but a JS `Set`
has no `some` method, so the callback raises
`TypeError: issueTitleSet.some is not a function` on the first
notification it is applied to.  With an empty notifications collection
the callback never runs and the function returns a zero count. -/
def deleteNotificationsForIssues (notifications : List Notification) :
    Except String (Nat × List Notification) :=
  match notifications with
  | [] => .ok (0, [])
  | _ :: _ => .error "TypeError: issueTitleSet.some is not a function"

/-- `deleteProjectCompletely(projectId)` of `src/unnamed/part_000`
(lines 379-436): gather the project's issues/sprints/workflows, delete
attachments, delete notifications, then bulk-remove issues, sprints,
workflows and the project, returning the counts.  Each step writes one
collection before the next runs, so when the notification step throws
(see `deleteNotificationsForIssues`) the attachments write has already
happened and nothing later runs; the `.error` result carries the store
as it stands at the throw. -/
def deleteProjectCompletely (st : Store) (projectId : String) :
    Except (String × Store) (DeleteProjectResult × Store) :=
  match st.projects.find? (fun p => p.id == projectId) with
  | none => .error ("Project not found", st)
  | some project =>
    let issuesP := st.issues.filter (fun i => i.projectId == projectId)
    let sprintsP := st.sprints.filter (fun s => s.projectId == projectId)
    let workflowsP := st.workflows.filter (fun w => w.projectId == projectId)
    let issueIds := issuesP.map (fun i => i.id)
    let (deletedAttachments, attachments1) := deleteAttachmentsForIssues issueIds st.attachments
    let st1 := { st with attachments := attachments1 }
    match deleteNotificationsForIssues st1.notifications with
    | .error e => .error (e, st1)
    | .ok (deletedNotifications, notifications1) =>
      let st2 : Store :=
        { projects := st1.projects.filter (fun p => p.id != projectId)
          issues := st1.issues.filter (fun i => i.projectId != projectId)
          sprints := st1.sprints.filter (fun s => s.projectId != projectId)
          workflows := st1.workflows.filter (fun w => w.projectId != projectId)
          notifications := notifications1
          attachments := st1.attachments }
      .ok (⟨project.name, issuesP.length, sprintsP.length, deletedAttachments,
            deletedNotifications, workflowsP.length⟩, st2)

/-- One day in milliseconds; the source steps with
`d.setDate(d.getDate() + 1)`, one calendar day per entry. -/
def DAY : Nat := 86400000

/-- GET /api/sprints/:id/burndown of `src/server.js` (lines 1106-1148):
require `startDate`; iterate one entry per day from `startDate` while
the day is at most `endDate` (today's timestamp when `endDate` is
unset); for each day count the member issues whose `doneAt` is unset or
strictly after that day's timestamp.  Each entry is the day's timestamp
(the source renders its date portion) with the remaining count. -/
def burndown (sprints : List Sprint) (issues : List Issue) (sprintId : String)
    (now : Nat) : Except String (List (Nat × Nat)) :=
  match sprints.find? (fun sp => sp.id == sprintId) with
  | none => .error "Sprint not found"
  | some sprint =>
    match sprint.startDate with
    | none => .error "Sprint has not started yet"
    | some start =>
      let endD := sprint.endDate.getD now
      let sprintIssues := issues.filter (fun i => i.sprintId = some sprintId)
      let numDays := if start ≤ endD then (endD - start) / DAY + 1 else 0
      .ok ((List.range numDays).map (fun k =>
        (start + k * DAY,
         (sprintIssues.filter (fun i =>
           match i.doneAt with
           | none => true
           | some t => start + k * DAY < t)).length)))

/-- List of valid user roles (both variants). -/
def VALID_ROLES : List String := ["admin", "project_manager", "developer", "viewer"]

/-- ASCII lowercase of one character; on the ASCII range this is what
JS `toLowerCase()` does (no submitted email in the claims leaves
ASCII). -/
def asciiLowerChar (c : Char) : Char :=
  if 65 ≤ c.toNat ∧ c.toNat ≤ 90 then Char.ofNat (c.toNat + 32) else c

/-- JS `String(email).toLowerCase()`. -/
def asciiLower (s : String) : String :=
  String.mk (s.data.map asciiLowerChar)

/-- JS `role && !VALID_ROLES.includes(role)`. -/
def invalidRole : Option String → Bool
  | some r => r != "" && !(VALID_ROLES.contains r)
  | none => false

/-- JS `role || 'developer'`. -/
def defaultRole : Option String → String
  | some r => if r ≠ "" then r else "developer"
  | none => "developer"

/-- POST /api/register of `src/server.js` (lines 238-263): require
email and password, validate a supplied role, reject when some stored
user's email equals the submitted email **as submitted** (the raw
`u.email === email` comparison), then store the user with the
lowercased email.  Password hashing is an excluded collaborator; the
stored hash is taken as an input. -/
def registerBase (users : List User) (email password : String) (role : Option String)
    (passwordHash : String) (newId : String) (now : Nat) : Except String (List User) :=
  if email = "" ∨ password = "" then .error "Email and password are required"
  else if invalidRole role then .error "Invalid role"
  else if users.any (fun u => u.email == email) then .error "Email already exists"
  else .ok (users ++ [{ id := newId
                        email := asciiLower email
                        passwordHash := passwordHash
                        role := defaultRole role
                        createdAt := now }])

/-- POST /api/register of `src/serverMaster.js` (lines 517-554): same
as the base variant plus a minimum password length, and the duplicate
check compares against the **lowercased** submitted email. -/
def registerMaster (users : List User) (email password : String) (role : Option String)
    (passwordHash : String) (newId : String) (now : Nat) : Except String (List User) :=
  if email = "" ∨ password = "" then .error "Email and password are required"
  else if password.length < 6 then .error "Password must be at least 6 characters"
  else if invalidRole role then .error "Invalid role"
  else if users.any (fun u => u.email == asciiLower email) then .error "Email already exists"
  else .ok (users ++ [{ id := newId
                        email := asciiLower email
                        passwordHash := passwordHash
                        role := defaultRole role
                        createdAt := now }])

/-- First-occurrence deduplication with an accumulator of already seen
keys; `objectKeys l = dedupFirstAux [] l` mirrors the key set and key
order of a JS object filled by assigning each element of `l` in turn. -/
def dedupFirstAux (seen : List String) : List String → List String
  | [] => []
  | s :: rest =>
    if seen.contains s then dedupFirstAux seen rest
    else s :: dedupFirstAux (s :: seen) rest

/-- Distinct keys, in first-assignment order, of a JS object written by
`for (const s of l) obj[s] = ...`. -/
def objectKeys (l : List String) : List String := dedupFirstAux [] l

/-- GET /api/projects/:id/board of `src/server.js` (lines 1073-1094):
ensure the workflow, filter the project's issues (optionally to one
sprint: the query parameter is absent or a string), and build the board
object `board[status] = filtered issues with that status` over the
workflow statuses.  Assigning the same object key twice stores one
entry, so the board is the association list over the distinct statuses
(the recomputed value for a repeated status is identical).
`src/serverMaster.js` lines 1478-1521 build the same partition, only
decorating each issue with emails and attachments. -/
def boardFor (workflows : List Workflow) (issues : List Issue) (projectId : String)
    (sprintId? : Option String) : List (String × List Issue) × List Workflow :=
  let (workflow, workflows1, _) := ensureWorkflow workflows projectId
  let filtered := issues.filter (fun i =>
    i.projectId = projectId ∧ (sprintId? = none ∨ i.sprintId = sprintId?))
  ((objectKeys workflow.statuses).map (fun s =>
    (s, filtered.filter (fun i => i.status = s))), workflows1)

/-! ## Helper lemmas -/

@[simp] theorem setTitle_doneAt (i : Issue) (t? : Option String) :
    (setTitle i t?).doneAt = i.doneAt := by cases t? <;> rfl

@[simp] theorem setTitle_status (i : Issue) (t? : Option String) :
    (setTitle i t?).status = i.status := by cases t? <;> rfl

@[simp] theorem setDescription_doneAt (i : Issue) (d? : Option String) :
    (setDescription i d?).doneAt = i.doneAt := by cases d? <;> rfl

@[simp] theorem setDescription_status (i : Issue) (d? : Option String) :
    (setDescription i d?).status = i.status := by cases d? <;> rfl

@[simp] theorem setPriority_doneAt (i : Issue) (p? : Option String) :
    (setPriority i p?).doneAt = i.doneAt := by cases p? <;> rfl

@[simp] theorem setPriority_status (i : Issue) (p? : Option String) :
    (setPriority i p?).status = i.status := by cases p? <;> rfl

@[simp] theorem setDueDate_doneAt (i : Issue) (d? : Option (Option String)) :
    (setDueDate i d?).doneAt = i.doneAt := by cases d? <;> rfl

@[simp] theorem setDueDate_status (i : Issue) (d? : Option (Option String)) :
    (setDueDate i d?).status = i.status := by cases d? <;> rfl

@[simp] theorem setLabels_doneAt (i : Issue) (ls? : Option (List String)) :
    (setLabels i ls?).doneAt = i.doneAt := by cases ls? <;> rfl

@[simp] theorem setLabels_status (i : Issue) (ls? : Option (List String)) :
    (setLabels i ls?).status = i.status := by cases ls? <;> rfl

@[simp] theorem setParentIdRaw_doneAt (i : Issue) (p? : Option (Option String)) :
    (setParentIdRaw i p?).doneAt = i.doneAt := by cases p? <;> rfl

@[simp] theorem setParentIdRaw_status (i : Issue) (p? : Option (Option String)) :
    (setParentIdRaw i p?).status = i.status := by cases p? <;> rfl

theorem applyAssignee_doneAt_status (users : List User) (i : Issue)
    (a? : Option (Option String)) (i' : Issue) (h : applyAssignee users i a? = .ok i') :
    i'.doneAt = i.doneAt ∧ i'.status = i.status := by
  cases a? with
  | none => cases h; exact ⟨rfl, rfl⟩
  | some v =>
    cases v with
    | none => cases h; exact ⟨rfl, rfl⟩
    | some a =>
      simp only [applyAssignee] at h
      split at h
      · cases h; exact ⟨rfl, rfl⟩
      · cases h

theorem applySprintIdBase_doneAt_status (sprints : List Sprint) (i : Issue)
    (s? : Option (Option String)) (i' : Issue) (h : applySprintIdBase sprints i s? = .ok i') :
    i'.doneAt = i.doneAt ∧ i'.status = i.status := by
  cases s? with
  | none => cases h; exact ⟨rfl, rfl⟩
  | some v =>
    cases v with
    | none => cases h; exact ⟨rfl, rfl⟩
    | some sid =>
      simp only [applySprintIdBase] at h
      split at h
      · cases h
      · split at h
        · cases h
        · cases h; exact ⟨rfl, rfl⟩

theorem applySprintIdMaster_doneAt_status (sprints : List Sprint) (i : Issue)
    (s? : Option (Option String)) (i' : Issue) (h : applySprintIdMaster sprints i s? = .ok i') :
    i'.doneAt = i.doneAt ∧ i'.status = i.status := by
  cases s? with
  | none => cases h; exact ⟨rfl, rfl⟩
  | some v =>
    cases v with
    | none => cases h; exact ⟨rfl, rfl⟩
    | some sid =>
      simp only [applySprintIdMaster] at h
      split at h
      · cases h; exact ⟨rfl, rfl⟩
      · cases h

theorem applyParentIdMaster_doneAt_status (allIssues : List Issue) (i : Issue)
    (p? : Option (Option String)) (i' : Issue) (h : applyParentIdMaster allIssues i p? = .ok i') :
    i'.doneAt = i.doneAt ∧ i'.status = i.status := by
  cases p? with
  | none => cases h; exact ⟨rfl, rfl⟩
  | some v =>
    cases v with
    | none => cases h; exact ⟨rfl, rfl⟩
    | some p =>
      simp only [applyParentIdMaster] at h
      split at h
      · split at h
        · cases h
        · cases h; exact ⟨rfl, rfl⟩
      · cases h

theorem applyStatusBase_spec (workflows : List Workflow) (i : Issue) (s? : Option String)
    (now : Nat) (i' : Issue) (h : applyStatusBase workflows i s? now = .ok i') :
    ((i'.status = "Done" ∧ i.status ≠ "Done") → i'.doneAt = some now) ∧
    ((i.status = "Done" ∧ i'.status ≠ "Done") → i'.doneAt = none) ∧
    ((i.status = "Done" ↔ i'.status = "Done") → i'.doneAt = i.doneAt) := by
  cases s? with
  | none =>
    cases h
    exact ⟨fun hc => absurd hc.1 hc.2, fun hc => absurd hc.1 hc.2, fun _ => rfl⟩
  | some ns =>
    simp only [applyStatusBase] at h
    split at h
    · split at h
      · split at h
        · cases h
          rename_i hchange hdone
          refine ⟨fun _ => rfl, fun hc => absurd hc.1 hdone.2, fun hiff => ?_⟩
          exact absurd (hiff.mpr hdone.1) hdone.2
        · split at h
          · cases h
            rename_i hchange hnotdone hundone
            exact ⟨fun hc => absurd hundone.1 hc.2, fun _ => rfl,
                   fun hiff => absurd (hiff.mp hundone.1) hundone.2⟩
          · cases h
            rename_i hchange hnotdone hnotundone
            refine ⟨fun hc => ?_, fun hc => ?_, fun _ => rfl⟩
            · exact absurd (And.intro hc.1 hc.2) hnotdone
            · exact absurd (And.intro hc.1 hc.2) hnotundone
      · cases h
        exact ⟨fun hc => absurd hc.1 hc.2, fun hc => absurd hc.1 hc.2, fun _ => rfl⟩
    · cases h

theorem applyStatusMaster_doneAt (workflows : List Workflow) (i : Issue) (s? : Option String)
    (i' : Issue) (h : applyStatusMaster workflows i s? = .ok i') : i'.doneAt = i.doneAt := by
  cases s? with
  | none => cases h; rfl
  | some ns =>
    simp only [applyStatusMaster] at h
    split at h
    · cases h; rfl
    · cases h

/-! ## C1 — doneAt bookkeeping on status updates -/

/-- A concrete workflow list for witnesses and counterexamples. -/
def wfEx : List Workflow := [defaultWorkflow "p1"]

/-- A concrete issue in progress inside project `p1`. -/
def issueInProgress : Issue :=
  { id := "i1", projectId := "p1", title := "Bug 1", description := "", priority := "Medium"
    status := "In Progress", assignee := none, dueDate := none, labels := [], parentId := none
    sprintId := none, creatorId := "u1", doneAt := none, createdAt := 10, updatedAt := 10 }

/-- The update payload that only moves the status to "Done". -/
def updToDone : IssueUpdate := { status := some "Done" }

/-- C1 (amended): in the base variant (`src/server.js`) an issue update
moving the status into "Done" sets `doneAt = now` (non-null), one
moving it out of "Done" clears `doneAt` to null, and an update that
does not cross the "Done" boundary leaves `doneAt` unchanged; the
serverMaster variant's update handler leaves `doneAt` unchanged on
every update, including those that move the status into or out of
"Done". -/
theorem updateIssue_doneAt_amended (workflows : List Workflow) (users : List User)
    (sprints : List Sprint) (allIssues : List Issue) (issue : Issue) (u : IssueUpdate)
    (now : Nat) (i' : Issue) :
    (updateIssueBase workflows users sprints issue u now = .ok i' →
      ((i'.status = "Done" ∧ issue.status ≠ "Done") → i'.doneAt = some now) ∧
      ((issue.status = "Done" ∧ i'.status ≠ "Done") → i'.doneAt = none) ∧
      ((issue.status = "Done" ↔ i'.status = "Done") → i'.doneAt = issue.doneAt)) ∧
    (updateIssueMaster workflows users sprints allIssues issue u now = .ok i' →
      i'.doneAt = issue.doneAt) := by
  constructor
  · intro h
    simp only [updateIssueBase] at h
    split at h
    · cases h
    · rename_i i4 h4
      split at h
      · cases h
      · rename_i i5 h5
        split at h
        · cases h
        · rename_i i9 h9
          cases h
          have e3d : (setPriority (setDescription (setTitle issue u.title) u.description)
              u.priority).doneAt = issue.doneAt := by simp
          have e3s : (setPriority (setDescription (setTitle issue u.title) u.description)
              u.priority).status = issue.status := by simp
          have s4 := applyStatusBase_spec _ _ _ _ _ h4
          have p5 := applyAssignee_doneAt_status _ _ _ _ h5
          have p9 := applySprintIdBase_doneAt_status _ _ _ _ h9
          simp only [setParentIdRaw_doneAt, setLabels_doneAt, setDueDate_doneAt,
            setParentIdRaw_status, setLabels_status, setDueDate_status] at p9
          refine ⟨fun hc => ?_, fun hc => ?_, fun hc => ?_⟩
          · replace hc : i9.status = "Done" ∧ issue.status ≠ "Done" := hc
            have h1 : i4.status = "Done" := by rw [← p5.2, ← p9.2]; exact hc.1
            have := s4.1 ⟨h1, by rw [e3s]; exact hc.2⟩
            show i9.doneAt = some now
            rw [p9.1, p5.1]; exact this
          · replace hc : issue.status = "Done" ∧ i9.status ≠ "Done" := hc
            have h2 : i4.status ≠ "Done" := by rw [← p5.2, ← p9.2]; exact hc.2
            have := s4.2.1 ⟨by rw [e3s]; exact hc.1, h2⟩
            show i9.doneAt = none
            rw [p9.1, p5.1]; exact this
          · replace hc : issue.status = "Done" ↔ i9.status = "Done" := hc
            have := s4.2.2 (by rw [e3s, ← p5.2, ← p9.2]; exact hc)
            show i9.doneAt = issue.doneAt
            rw [p9.1, p5.1, this, e3d]
  · intro h
    simp only [updateIssueMaster] at h
    split at h
    · cases h
    · rename_i i4 h4
      split at h
      · cases h
      · rename_i i5 h5
        split at h
        · cases h
        · rename_i i8 h8
          split at h
          · cases h
          · rename_i i9 h9
            cases h
            have e3d : (setPriority (setDescription (setTitle issue u.title) u.description)
                u.priority).doneAt = issue.doneAt := by simp
            have s4 := applyStatusMaster_doneAt _ _ _ _ h4
            have p5 := applyAssignee_doneAt_status _ _ _ _ h5
            have p8 := applyParentIdMaster_doneAt_status _ _ _ _ h8
            have p9 := applySprintIdMaster_doneAt_status _ _ _ _ h9
            simp only [setLabels_doneAt, setDueDate_doneAt] at p8
            show i9.doneAt = issue.doneAt
            rw [p9.1, p8.1, p5.1, s4, e3d]

/-- C1 counterexample: on the serverMaster variant (cited by the claim
as implementing the same status branch), updating the in-progress
issue's status to "Done" yields an issue whose `doneAt` is still null —
not a non-null timestamp as the claim requires. -/
theorem updateIssueMaster_doneAt_counterexample :
    ∃ i', updateIssueMaster wfEx [] [] [] issueInProgress updToDone 100 = .ok i' ∧
      i'.status = "Done" ∧ issueInProgress.status ≠ "Done" ∧ i'.doneAt = none := by
  refine ⟨_, rfl, ?_⟩
  refine ⟨rfl, by decide, rfl⟩

/-- C1 witness: the amended theorem applied to the concrete base-variant
update that moves the issue into "Done". -/
theorem updateIssue_doneAt_amended_witness :
    ∃ i', updateIssueBase wfEx [] [] issueInProgress updToDone 100 = .ok i' ∧
      i'.doneAt = some 100 := by
  refine ⟨_, rfl, ?_⟩
  exact ((updateIssue_doneAt_amended wfEx [] [] [] issueInProgress updToDone 100 _).1
    rfl).1 ⟨rfl, by decide⟩

theorem find?_replaceFirst {α : Type} (p : α → Bool) (v : α) (hv : p v = true)
    (l : List α) (hl : (l.find? p).isSome) : (replaceFirst p v l).find? p = some v := by
  induction l with
  | nil => simp [List.find?] at hl
  | cons a as ih =>
    by_cases hpa : p a = true
    · simp only [replaceFirst, hpa, if_true]
      exact List.find?_cons_of_pos as hv
    · have hpa' : p a = false := by simpa using hpa
      simp only [replaceFirst, hpa', Bool.false_eq_true, if_false]
      have h1 : List.find? p (a :: replaceFirst p v as) = List.find? p (replaceFirst p v as) :=
        List.find?_cons_of_neg _ (by simp [hpa'])
      have h2 : List.find? p (a :: as) = List.find? p as :=
        List.find?_cons_of_neg _ (by simp [hpa'])
      rw [h1]
      rw [h2] at hl
      exact ih hl

theorem get_map_pointwise {α β : Type} (f : α → β) (l : List α) (k : Nat)
    (hk : k < l.length) (hk' : k < (l.map f).length) :
    (l.map f).get ⟨k, hk'⟩ = f (l.get ⟨k, hk⟩) := by
  simp

/-! ## C2 — closing a sprint returns incomplete member issues to the backlog -/

/-- C2: on a successful sprint close, the issues collection keeps its
length, every member issue that was not "Done" has its `sprintId`
cleared to null, every "Done" member issue is kept entirely unchanged,
and every non-member issue is kept entirely unchanged. -/
theorem closeSprint_backlog (sprints : List Sprint) (issues : List Issue) (sid : String)
    (now : Nat) (s1 : Sprint) (sps1 : List Sprint) (iss1 : List Issue)
    (h : closeSprint sprints issues sid now = .ok (s1, sps1, iss1)) :
    iss1.length = issues.length ∧
    ∀ k (hk : k < issues.length) (hk' : k < iss1.length),
      (((issues.get ⟨k, hk⟩).sprintId = some sid ∧ (issues.get ⟨k, hk⟩).status ≠ "Done") →
        (iss1.get ⟨k, hk'⟩).sprintId = none) ∧
      (((issues.get ⟨k, hk⟩).sprintId = some sid ∧ (issues.get ⟨k, hk⟩).status = "Done") →
        iss1.get ⟨k, hk'⟩ = issues.get ⟨k, hk⟩) ∧
      ((issues.get ⟨k, hk⟩).sprintId ≠ some sid → iss1.get ⟨k, hk'⟩ = issues.get ⟨k, hk⟩) := by
  simp only [closeSprint] at h
  split at h
  · cases h
  · split at h
    · cases h
    · cases h
      refine ⟨by simp, fun k hk hk' => ?_⟩
      rw [get_map_pointwise _ _ k hk hk']
      refine ⟨fun hc => ?_, fun hc => ?_, fun hc => ?_⟩
      · rw [if_pos hc]
      · rw [if_neg (by intro hx; exact absurd hc.2 (by simpa using hx.2))]
      · rw [if_neg (by intro hx; exact absurd hx.1 hc)]

/-- An active concrete sprint for witnesses. -/
def sprintActiveEx : Sprint :=
  { id := "s1", projectId := "p1", name := "Sprint 1", startDate := some 0,
    endDate := none, status := "active", createdAt := 0, closedAt := none }

/-- Concrete member issues: one in progress, one done. -/
def issuesPairEx : List Issue :=
  [{ issueInProgress with sprintId := some "s1" },
   { issueInProgress with
     id := "i2"
     status := "Done"
     doneAt := some 20
     sprintId := some "s1" }]

/-- The sprint record after the witness close. -/
def sprintClosedEx : Sprint :=
  { sprintActiveEx with status := "closed", closedAt := some 50, endDate := some 50 }

/-- The issues collection after the witness close. -/
def issuesPairClosed : List Issue :=
  [issueInProgress,
   { issueInProgress with
     id := "i2"
     status := "Done"
     doneAt := some 20
     sprintId := some "s1" }]

/-- C2 witness: closing sprint `s1` of the concrete two-issue state
moves the incomplete issue to the backlog and keeps the "Done" one
attached, by the theorem applied at this state. -/
theorem closeSprint_backlog_witness :
    closeSprint [sprintActiveEx] issuesPairEx "s1" 50
      = .ok (sprintClosedEx, [sprintClosedEx], issuesPairClosed) ∧
    (issuesPairClosed.get ⟨0, by decide⟩).sprintId = none ∧
    issuesPairClosed.get ⟨1, by decide⟩ = issuesPairEx.get ⟨1, by decide⟩ := by
  have h : closeSprint [sprintActiveEx] issuesPairEx "s1" 50
      = .ok (sprintClosedEx, [sprintClosedEx], issuesPairClosed) := rfl
  have H := closeSprint_backlog _ _ "s1" 50 _ _ _ h
  refine ⟨h, ?_, ?_⟩
  · exact ((H.2 0 (by decide) (by decide)).1 ⟨by decide, by decide⟩)
  · exact ((H.2 1 (by decide) (by decide)).2.1 ⟨by decide, by decide⟩)

/-! ## C3 — sprint state machine is monotonic -/

/-- C3: starting a sprint fails whenever its status is "active" or
"closed" (so a second consecutive start fails, and a start after a
close fails); closing fails whenever the status is already "closed"; on
success start yields "active" and close yields "closed"; and for a
sprint whose status lies in the planning/active/closed enum, a
successful start comes only from "planning" and a successful close only
from "planning" or "active" — the status only ever advances.  A failed
start or close returns `.error` and no written collections: the throw
happens before `writeSprints`. -/
theorem sprintLifecycle_monotonic (sprints : List Sprint) (issues : List Issue)
    (sid : String) (now now2 : Nat) (s : Sprint)
    (hfind : sprints.find? (fun sp => sp.id == sid) = some s) :
    ((s.status = "active" ∨ s.status = "closed") →
      ∃ e, startSprint sprints sid now = .error e) ∧
    (s.status = "closed" → ∃ e, closeSprint sprints issues sid now = .error e) ∧
    (∀ s1 rest, startSprint sprints sid now = .ok (s1, rest) →
      s.status ≠ "active" ∧ s.status ≠ "closed" ∧ s1.status = "active" ∧
      (∃ e, startSprint rest sid now2 = .error e)) ∧
    (∀ s1 sps1 iss1, closeSprint sprints issues sid now = .ok (s1, sps1, iss1) →
      s.status ≠ "closed" ∧ s1.status = "closed" ∧
      (∃ e, startSprint sps1 sid now2 = .error e) ∧
      (∃ e, closeSprint sps1 iss1 sid now2 = .error e)) ∧
    (s.status ∈ (["planning", "active", "closed"] : List String) →
      (∀ s1 rest, startSprint sprints sid now = .ok (s1, rest) → s.status = "planning") ∧
      (∀ s1 sps1 iss1, closeSprint sprints issues sid now = .ok (s1, sps1, iss1) →
        s.status = "planning" ∨ s.status = "active")) := by
  have hps : (s.id == sid) = true := by
    have h := List.find?_some hfind
    simpa using h
  have hsome : (sprints.find? (fun sp : Sprint => sp.id == sid)).isSome := by
    rw [hfind]; rfl
  refine ⟨?_, ?_, ?_, ?_, ?_⟩
  · intro hc
    simp only [startSprint, hfind]
    rcases hc with h | h
    · rw [if_pos h]; exact ⟨_, rfl⟩
    · rw [if_neg (by rw [h]; decide), if_pos h]; exact ⟨_, rfl⟩
  · intro h
    simp only [closeSprint, hfind]
    rw [if_pos h]; exact ⟨_, rfl⟩
  · intro s1 rest h
    simp only [startSprint, hfind] at h
    split at h
    · cases h
    · split at h
      · cases h
      · rename_i hna hnc
        cases h
        refine ⟨hna, hnc, rfl, ?_⟩
        have hrest := find?_replaceFirst (fun sp : Sprint => sp.id == sid)
          { s with status := "active", startDate := some (s.startDate.getD now) }
          (by simpa using hps) sprints hsome
        simp only [startSprint, hrest]
        exact ⟨"Sprint already started", by simp⟩
  · intro s1 sps1 iss1 h
    simp only [closeSprint, hfind] at h
    split at h
    · cases h
    · rename_i hnc
      cases h
      refine ⟨hnc, rfl, ?_, ?_⟩
      · have hrest := find?_replaceFirst (fun sp : Sprint => sp.id == sid)
          { s with status := "closed", closedAt := some now,
                   endDate := some (s.endDate.getD now) }
          (by simpa using hps) sprints hsome
        simp only [startSprint, hrest]
        exact ⟨"Cannot start a closed sprint", by simp⟩
      · have hrest := find?_replaceFirst (fun sp : Sprint => sp.id == sid)
          { s with status := "closed", closedAt := some now,
                   endDate := some (s.endDate.getD now) }
          (by simpa using hps) sprints hsome
        simp only [closeSprint, hrest]
        exact ⟨"Sprint already closed", by simp⟩
  · intro hmem
    simp only [List.mem_cons, List.not_mem_nil, or_false] at hmem
    constructor
    · intro s1 rest h
      simp only [startSprint, hfind] at h
      split at h
      · cases h
      · split at h
        · cases h
        · rename_i hna hnc
          rcases hmem with h1 | h1 | h1
          · exact h1
          · exact absurd h1 hna
          · exact absurd h1 hnc
    · intro s1 sps1 iss1 h
      simp only [closeSprint, hfind] at h
      split at h
      · cases h
      · rename_i hnc
        rcases hmem with h1 | h1 | h1
        · exact Or.inl h1
        · exact Or.inr h1
        · exact absurd h1 hnc

/-- C3 witness: the theorem applied to a singleton planning sprint;
starting succeeds and a second start, a start after close, and a second
close all fail. -/
theorem sprintLifecycle_monotonic_witness :
    ∃ s1 rest, startSprint [{ sprintActiveEx with status := "planning" }] "s1" 7
        = .ok (s1, rest) ∧ s1.status = "active" ∧
      (∃ e, startSprint rest "s1" 8 = .error e) := by
  have H := sprintLifecycle_monotonic [{ sprintActiveEx with status := "planning" }] []
    "s1" 7 8 { sprintActiveEx with status := "planning" } (by rfl)
  refine ⟨_, _, rfl, ?_⟩
  have := H.2.2.1 _ _ rfl
  exact ⟨this.2.2.1, this.2.2.2⟩

/-! ## C6 — ensureWorkflow creates the default workflow and is idempotent -/

theorem find?_append_single {α : Type} (p : α → Bool) (v : α) (hv : p v = true)
    (l : List α) (h : l.find? p = none) : (l ++ [v]).find? p = some v := by
  induction l with
  | nil => simpa using List.find?_cons_of_pos [] hv
  | cons a as ih =>
    have hpa : p a = false := by
      by_contra hx
      rw [List.find?_cons_of_pos as (by simpa using hx)] at h
      cases h
    rw [List.find?_cons_of_neg as (by simp [hpa])] at h
    rw [List.cons_append, List.find?_cons_of_neg _ (by simp [hpa])]
    exact ih h

/-- C6: `ensureWorkflow` always succeeds (it is a total function); when
no workflow for the project exists it returns the default
To Do / In Progress / Done workflow and persists it by appending; and
a second call returns the same statuses list, performs no write, and
leaves the stored collection exactly as the first call left it. -/
theorem ensureWorkflow_default_and_idempotent (workflows : List Workflow) (pid : String) :
    (workflows.find? (fun w => w.projectId == pid) = none →
      (ensureWorkflow workflows pid).1 = defaultWorkflow pid ∧
      (ensureWorkflow workflows pid).2.1 = workflows ++ [defaultWorkflow pid]) ∧
    (ensureWorkflow (ensureWorkflow workflows pid).2.1 pid).1.statuses
      = (ensureWorkflow workflows pid).1.statuses ∧
    (ensureWorkflow (ensureWorkflow workflows pid).2.1 pid).2.1
      = (ensureWorkflow workflows pid).2.1 ∧
    (ensureWorkflow (ensureWorkflow workflows pid).2.1 pid).2.2 = false := by
  cases hfind : workflows.find? (fun w => w.projectId == pid) with
  | some wf =>
    have e1 : ensureWorkflow workflows pid = (wf, workflows, false) := by
      simp [ensureWorkflow, hfind]
    have t1 : (ensureWorkflow workflows pid).2.1 = workflows := by rw [e1]
    refine ⟨fun hc => by simp [hfind] at hc, ?_, ?_, ?_⟩
    · rw [t1]
    · rw [t1]; exact t1
    · rw [t1, e1]
  | none =>
    have happ : (workflows ++ [defaultWorkflow pid]).find? (fun w => w.projectId == pid)
        = some (defaultWorkflow pid) :=
      find?_append_single _ _ (by simp [defaultWorkflow]) _ hfind
    have e1 : ensureWorkflow workflows pid
        = (defaultWorkflow pid, workflows ++ [defaultWorkflow pid], true) := by
      simp [ensureWorkflow, hfind]
    have e2 : ensureWorkflow (workflows ++ [defaultWorkflow pid]) pid
        = (defaultWorkflow pid, workflows ++ [defaultWorkflow pid], false) := by
      simp [ensureWorkflow, happ]
    have t1 : (ensureWorkflow workflows pid).2.1 = workflows ++ [defaultWorkflow pid] := by
      rw [e1]
    refine ⟨fun _ => ⟨by rw [e1], t1⟩, ?_, ?_, ?_⟩
    · rw [t1, e2, e1]
    · rw [t1, e2]
    · rw [t1, e2]

/-- C6 witness: the theorem applied to the empty workflows collection
for project `p1`: the first call creates the default workflow, the
second call returns the same statuses and writes nothing. -/
theorem ensureWorkflow_default_and_idempotent_witness :
    (ensureWorkflow [] "p1").1 = defaultWorkflow "p1" ∧
    (ensureWorkflow [] "p1").2.1 = [defaultWorkflow "p1"] ∧
    (ensureWorkflow (ensureWorkflow [] "p1").2.1 "p1").1.statuses
      = (ensureWorkflow [] "p1").1.statuses ∧
    (ensureWorkflow (ensureWorkflow [] "p1").2.1 "p1").2.2 = false := by
  have H := ensureWorkflow_default_and_idempotent [] "p1"
  have h0 := H.1 (by rfl)
  exact ⟨h0.1, by rw [h0.2]; rfl, H.2.1, H.2.2.2⟩

/-! ## C5 — issue creation: status validation, default status, fresh timestamps -/

theorem resolveCreateStatus_ok (wf : Workflow) (st : Option String) (r : String)
    (h : resolveCreateStatus wf st = .ok r) :
    ((st = none ∨ st = some "") → r = wf.statuses.headD "") ∧
    (∀ s, st = some s → s ≠ "" → r = s ∧ wf.statuses.contains s = true) := by
  cases st with
  | none =>
    cases h
    exact ⟨fun _ => rfl, fun s hs => by cases hs⟩
  | some s0 =>
    simp only [resolveCreateStatus] at h
    split at h
    · rename_i hne
      split at h
      · cases h
        rename_i hcont
        refine ⟨fun hc => ?_, fun s hs hsne => ?_⟩
        · rcases hc with hc | hc
          · cases hc
          · cases hc; exact absurd rfl hne
        · cases hs; exact ⟨rfl, hcont⟩
      · cases h
    · rename_i hne
      cases h
      have hs0 : s0 = "" := by by_contra hx; exact hne hx
      refine ⟨fun _ => rfl, fun s hs hsne => ?_⟩
      cases hs; exact absurd hs0 hsne

theorem resolveCreateStatus_invalid (wf : Workflow) (s : String) (hs : s ≠ "")
    (hc : wf.statuses.contains s = false) :
    resolveCreateStatus wf (some s) = .error "Invalid status" := by
  simp only [resolveCreateStatus]
  rw [if_pos hs, if_neg (by rw [hc]; simp)]

/-- C5 (amended): for an issue create on an existing project, a
supplied **non-empty** status that is not a member of the workflow
statuses makes the create fail with "Invalid status"; when the status
is absent — or supplied as the empty string, which the handler's JS
truthiness test treats as absent — the new issue's status is the first
entry of the workflow statuses; and the persisted issue has
`doneAt = null` (the literal has no such key) and
`createdAt = updatedAt = now`. -/
theorem createIssue_status_amended (projects : List Project) (workflows : List Workflow)
    (users : List User) (allIssues : List Issue) (sprints : List Sprint)
    (input : CreateIssueInput) (creatorId newId : String) (now : Nat) :
    (∀ s, input.status = some s → s ≠ "" →
      (ensureWorkflow workflows input.projectId).1.statuses.contains s = false →
      input.projectId ≠ "" → input.title ≠ "" →
      projects.all (fun p => p.id != input.projectId) = false →
      createIssueBase projects workflows users allIssues sprints input creatorId newId now
        = .error "Invalid status") ∧
    (∀ issue workflows1,
      createIssueBase projects workflows users allIssues sprints input creatorId newId now
        = .ok (issue, workflows1) →
      ((input.status = none ∨ input.status = some "") →
        issue.status = (ensureWorkflow workflows input.projectId).1.statuses.headD "") ∧
      (∀ s, input.status = some s → s ≠ "" →
        issue.status = s ∧
        (ensureWorkflow workflows input.projectId).1.statuses.contains s = true) ∧
      issue.doneAt = none ∧ issue.createdAt = now ∧ issue.updatedAt = now) := by
  constructor
  · intro s hsome hne hcont hpid htitle hall
    rcases hE : ensureWorkflow workflows input.projectId with ⟨wf1, ws1, b1⟩
    rw [hE] at hcont
    simp only [createIssueBase]
    rw [if_neg (by simp [hpid, htitle]), if_neg (by simp [hall])]
    rw [hE]
    rw [hsome, resolveCreateStatus_invalid wf1 s hne hcont]
  · intro issue workflows1 h
    rcases hE : ensureWorkflow workflows input.projectId with ⟨wf1, ws1, b1⟩
    simp only [createIssueBase, hE] at h
    split at h
    · cases h
    · split at h
      · cases h
      · split at h
        · cases h
        · rename_i issueStatus hS
          split at h
          · cases h
          · split at h
            · cases h
            · split at h
              · cases h
              · cases h
                have hr := resolveCreateStatus_ok wf1 input.status issueStatus hS
                refine ⟨fun hc => ?_, fun s hs hsne => ?_, rfl, rfl, rfl⟩
                · exact hr.1 hc
                · exact hr.2 s hs hsne

/-- The concrete project used by the C5 witnesses. -/
def projectEx : Project :=
  { id := "p1", name := "Alpha", key := "ALP", ownerId := "u1", createdAt := 0 }

/-- C5 counterexample: supplying `status: ""` (a supplied status that
is not a member of the workflow statuses) does not fail — the create
succeeds and silently defaults the status to the workflow's first
entry, because the handler tests the status with JS truthiness. -/
theorem createIssue_emptyStatus_counterexample :
    ∃ issue workflows1,
      createIssueBase [projectEx] [] [] [] []
        { projectId := "p1", title := "Bug 1", status := some "" } "u1" "i9" 5
        = .ok (issue, workflows1) ∧
      (defaultWorkflow "p1").statuses.contains "" = false ∧
      issue.status = "To Do" := by
  exact ⟨_, _, rfl, rfl, rfl⟩

/-- The issue that the status-less witness create persists. -/
def bug2Issue : Issue :=
  { id := "i10", projectId := "p1", title := "Bug 2", description := "", priority := "Medium"
    status := "To Do", assignee := none, dueDate := none, labels := [], parentId := none
    sprintId := none, creatorId := "u1", doneAt := none, createdAt := 7, updatedAt := 7 }

/-- C5 witness: the amended theorem applied at concrete inputs — an
invalid non-empty status is rejected, and a status-less create defaults
to "To Do" with `doneAt = null` and fresh equal timestamps. -/
theorem createIssue_status_amended_witness :
    createIssueBase [projectEx] [] [] [] []
      { projectId := "p1", title := "Bug 1", status := some "Bogus" } "u1" "i9" 5
      = .error "Invalid status" ∧
    ∃ issue workflows1,
      createIssueBase [projectEx] [] [] [] []
        { projectId := "p1", title := "Bug 2" } "u1" "i10" 7
        = .ok (issue, workflows1) ∧
      issue.status = "To Do" ∧ issue.doneAt = none ∧
      issue.createdAt = 7 ∧ issue.updatedAt = 7 := by
  constructor
  · exact (createIssue_status_amended [projectEx] [] [] [] []
      { projectId := "p1", title := "Bug 1", status := some "Bogus" } "u1" "i9" 5).1
      "Bogus" rfl (by decide) (by decide) (by decide) (by decide) (by decide)
  · have heq : createIssueBase [projectEx] [] [] [] []
        { projectId := "p1", title := "Bug 2" } "u1" "i10" 7
        = .ok (bug2Issue, [defaultWorkflow "p1"]) := rfl
    have H := (createIssue_status_amended [projectEx] [] [] [] []
      { projectId := "p1", title := "Bug 2" } "u1" "i10" 7).2 bug2Issue
      [defaultWorkflow "p1"] heq
    exact ⟨bug2Issue, [defaultWorkflow "p1"], heq, (H.1 (Or.inl rfl)).trans rfl,
      H.2.2.1, H.2.2.2.1, H.2.2.2.2⟩

/-! ## C7 — deleting a sprint moves all member issues to the backlog -/

/-- C7: a successful sprint delete clears `sprintId` on every issue
referencing the sprint regardless of its status (unlike close, which
skips "Done" issues) and leaves other issues unchanged; removes every
notification whose message contains the sprint's quoted name; leaves no
sprint with the deleted id in the collection; and reports the count of
moved issues and of deleted notifications. -/
theorem deleteSprint_cleanup (sprints : List Sprint) (issues : List Issue)
    (notifications : List Notification) (sid : String) (now : Nat)
    (res : DeleteSprintResult) (sps1 : List Sprint) (iss1 : List Issue)
    (nots1 : List Notification)
    (h : deleteSprintCompletely sprints issues notifications sid now
      = .ok (res, sps1, iss1, nots1)) :
    ∃ sprint, sprints.find? (fun s => s.id == sid) = some sprint ∧
      iss1.length = issues.length ∧
      (∀ k (hk : k < issues.length) (hk' : k < iss1.length),
        ((issues.get ⟨k, hk⟩).sprintId = some sid → (iss1.get ⟨k, hk'⟩).sprintId = none) ∧
        ((issues.get ⟨k, hk⟩).sprintId ≠ some sid →
          iss1.get ⟨k, hk'⟩ = issues.get ⟨k, hk⟩)) ∧
      (∀ n ∈ notifications,
        jsIncludes n.message ("\"" ++ sprint.name ++ "\"") = true → n ∉ nots1) ∧
      (∀ s1 ∈ sps1, s1.id ≠ sid) ∧
      res.movedIssues = (issues.filter (fun i => i.sprintId = some sid)).length ∧
      res.deletedNotifications = notifications.length - nots1.length := by
  simp only [deleteSprintCompletely] at h
  split at h
  · cases h
  · rename_i sprint hfind
    cases h
    refine ⟨sprint, hfind, by simp, fun k hk hk' => ?_, ?_, ?_, rfl, rfl⟩
    · rw [get_map_pointwise _ _ k hk hk']
      refine ⟨fun hc => ?_, fun hc => ?_⟩
      · rw [if_pos hc]
      · rw [if_neg hc]
    · intro n hmem hinc hn1
      have hp := (List.mem_filter.mp hn1).2
      rw [hinc] at hp
      simp at hp
    · intro s1 hs1
      have hp := (List.mem_filter.mp hs1).2
      simpa using hp

/-- The "Done" member issue used by the C7 witness. -/
def doneMemberIssue : Issue :=
  { issueInProgress with
    id := "i2"
    status := "Done"
    doneAt := some 20
    sprintId := some "s1" }

/-- A notification mentioning the witness sprint by quoted name. -/
def sprintNoteEx : Notification :=
  { id := "n1", userId := "u1", message := "Sprint \"Sprint 1\" has started"
    read := false, createdAt := 1 }

/-- C7 witness: the theorem applied at a concrete state — the "Done"
member issue is moved to the backlog, the quoted-name notification is
removed, and the counts are reported. -/
theorem deleteSprint_cleanup_witness :
    ∃ res sps1 iss1 nots1,
      deleteSprintCompletely [sprintActiveEx] [doneMemberIssue] [sprintNoteEx] "s1" 99
        = .ok (res, sps1, iss1, nots1) ∧
      (∃ hk : 0 < iss1.length, (iss1.get ⟨0, hk⟩).sprintId = none) ∧
      sprintNoteEx ∉ nots1 ∧
      res.movedIssues = 1 ∧ res.deletedNotifications = 1 := by
  refine ⟨_, _, _, _, rfl, ?_⟩
  obtain ⟨sprint, hfind, hlen, hpt, hnote, hsp, hmoved, hdel⟩ :=
    deleteSprint_cleanup [sprintActiveEx] [doneMemberIssue] [sprintNoteEx] "s1" 99 _ _ _ _ rfl
  have hsprint : sprint = sprintActiveEx := by
    rw [show List.find? (fun s => s.id == "s1") [sprintActiveEx] = some sprintActiveEx
      from rfl] at hfind
    exact (Option.some.injEq _ _).mp hfind.symm
  refine ⟨⟨by rw [hlen]; decide, (hpt 0 (by decide) (by rw [hlen]; decide)).1 rfl⟩, ?_, ?_, ?_⟩
  · exact hnote sprintNoteEx (by decide) (by rw [hsprint]; decide)
  · rw [hmoved]; decide
  · rw [hdel]; rfl

/-! ## C8 — burndown: one entry per day, remaining = not-yet-done member issues -/

/-- The claim's wording of "still open on day d": `doneAt` is null or
`doneAt` is after that day. -/
def openOn (d : Nat) (i : Issue) : Prop :=
  i.doneAt = none ∨ ∃ t, i.doneAt = some t ∧ d < t

instance (d : Nat) (i : Issue) : Decidable (openOn d i) :=
  match h : i.doneAt with
  | none => isTrue (Or.inl h)
  | some t =>
    if hd : d < t then isTrue (Or.inr ⟨t, h, hd⟩)
    else
      isFalse (by
        rintro (h1 | ⟨t2, h2, hd2⟩)
        · rw [h] at h1; cases h1
        · rw [h] at h2; cases h2; exact hd hd2)

/-- C8: burndown fails with the validation error when `startDate` is
unset; otherwise it returns one entry per calendar day from `startDate`
through `endDate` (today when `endDate` is unset), each entry carrying
that day's timestamp and the number of member issues whose `doneAt` is
null or strictly after that day. -/
theorem burndown_spec (sprints : List Sprint) (issues : List Issue) (sid : String)
    (now : Nat) (sprint : Sprint)
    (hfind : sprints.find? (fun sp => sp.id == sid) = some sprint) :
    (sprint.startDate = none →
      burndown sprints issues sid now = .error "Sprint has not started yet") ∧
    (∀ start, sprint.startDate = some start →
      ∃ l, burndown sprints issues sid now = .ok l ∧
        l.length = (if start ≤ sprint.endDate.getD now
          then (sprint.endDate.getD now - start) / DAY + 1 else 0) ∧
        ∀ k (hk : k < l.length),
          l.get ⟨k, hk⟩ = (start + k * DAY,
            ((issues.filter (fun i => i.sprintId = some sid)).filter
              (fun i => decide (openOn (start + k * DAY) i))).length)) := by
  constructor
  · intro hs
    simp only [burndown, hfind, hs]
  · intro start hs
    simp only [burndown, hfind, hs]
    refine ⟨_, rfl, by simp, fun k hk => ?_⟩
    have hk2 : k < (List.range (if start ≤ sprint.endDate.getD now
        then (sprint.endDate.getD now - start) / DAY + 1 else 0)).length := by
      simpa using hk
    rw [get_map_pointwise _ _ k hk2 hk]
    have hr : (List.range (if start ≤ sprint.endDate.getD now
        then (sprint.endDate.getD now - start) / DAY + 1 else 0)).get ⟨k, hk2⟩ = k := by
      simp
    rw [hr]
    have hfeq : (issues.filter (fun i => i.sprintId = some sid)).filter
        (fun i => match i.doneAt with
          | none => true
          | some t => start + k * DAY < t)
        = (issues.filter (fun i => i.sprintId = some sid)).filter
          (fun i => decide (openOn (start + k * DAY) i)) := by
      refine List.filter_congr (fun i _ => ?_)
      cases hd : i.doneAt with
      | none => simp [openOn, hd]
      | some t => simp [openOn, hd]
    rw [hfeq]

/-- The member issues of the burndown witness: one never done, one done
partway through the first day. -/
def burndownIssues : List Issue :=
  [{ issueInProgress with sprintId := some "s1" },
   { issueInProgress with
     id := "i2"
     status := "Done"
     doneAt := some 40000000
     sprintId := some "s1" }]

/-- The witness sprint: started at time 0, no end date. -/
def burndownSprint : Sprint :=
  { id := "s1", projectId := "p1", name := "Sprint 1", startDate := some 0,
    endDate := none, status := "active", createdAt := 0, closedAt := none }

/-- C8 witness: the theorem applied at a concrete state ("today" one
day after the start): two entries, with 2 issues remaining on day 0 and
1 remaining on day 1; and the validation error on an unstarted
sprint. -/
theorem burndown_spec_witness :
    (∃ l, burndown [burndownSprint] burndownIssues "s1" 86400000 = .ok l ∧
      l.length = 2 ∧
      ∃ hk0 : 0 < l.length, ∃ hk1 : 1 < l.length,
        (l.get ⟨0, hk0⟩).2 = 2 ∧ (l.get ⟨1, hk1⟩).2 = 1) ∧
    burndown [{ burndownSprint with startDate := none }] burndownIssues "s1" 86400000
      = .error "Sprint has not started yet" := by
  constructor
  · obtain ⟨l, hl, hlen, hget⟩ :=
      (burndown_spec [burndownSprint] burndownIssues "s1" 86400000 burndownSprint rfl).2
        0 rfl
    have hlen2 : l.length = 2 := by rw [hlen]; decide
    refine ⟨l, hl, hlen2, by rw [hlen2]; decide, by rw [hlen2]; decide, ?_, ?_⟩
    · rw [congrArg Prod.snd (hget 0 (by rw [hlen2]; decide))]
      decide
    · rw [congrArg Prod.snd (hget 1 (by rw [hlen2]; decide))]
      decide
  · exact (burndown_spec [{ burndownSprint with startDate := none }] burndownIssues
      "s1" 86400000 { burndownSprint with startDate := none } rfl).1 rfl

/-! ## C10 — the board partitions the filtered issues by status -/

theorem mem_dedupFirstAux {a : String} : ∀ (seen l : List String),
    a ∈ dedupFirstAux seen l → a ∈ l := by
  intro seen l
  induction l generalizing seen with
  | nil => simp [dedupFirstAux]
  | cons b rest ih =>
    simp only [dedupFirstAux]
    split
    · intro h
      exact List.mem_cons_of_mem b (ih seen h)
    · intro h
      rcases List.mem_cons.mp h with h1 | h1
      · exact h1 ▸ List.mem_cons_self b rest
      · exact List.mem_cons_of_mem b (ih (b :: seen) h1)

theorem countP_dedupFirstAux (a : String) : ∀ (seen l : List String),
    (dedupFirstAux seen l).countP (fun s => decide (a = s))
      = if a ∈ l ∧ a ∉ seen then 1 else 0 := by
  intro seen l
  induction l generalizing seen with
  | nil => simp [dedupFirstAux]
  | cons b rest ih =>
    simp only [dedupFirstAux]
    by_cases hb : seen.contains b
    · rw [if_pos hb, ih seen]
      have hbseen : b ∈ seen := by simpa using hb
      by_cases hab : a = b
      · subst hab
        simp [hbseen]
      · simp [hab]
    · rw [if_neg hb, List.countP_cons, ih (b :: seen)]
      have hbseen : b ∉ seen := by simpa using hb
      by_cases hab : a = b
      · subst hab
        simp [hbseen]
      · simp [hab]

/-- C10: an issue of the project that passes the optional sprint filter
appears in exactly one column of the board when its status is one of
the workflow statuses — and that column is keyed by its status — and
appears in no column when its status is not a workflow status. -/
theorem boardFor_partition (workflows : List Workflow) (issues : List Issue)
    (pid : String) (q? : Option String) (i : Issue)
    (hmem : i ∈ issues) (hpid : i.projectId = pid) (hq : q? = none ∨ i.sprintId = q?) :
    (i.status ∈ (ensureWorkflow workflows pid).1.statuses →
      ((boardFor workflows issues pid q?).1.countP (fun c => decide (i ∈ c.2)) = 1 ∧
       ∀ c ∈ (boardFor workflows issues pid q?).1, i ∈ c.2 → c.1 = i.status)) ∧
    (i.status ∉ (ensureWorkflow workflows pid).1.statuses →
      ∀ c ∈ (boardFor workflows issues pid q?).1, i ∉ c.2) := by
  rcases hE : ensureWorkflow workflows pid with ⟨wf1, ws1, b1⟩
  have hfil : i ∈ issues.filter (fun j =>
      decide (j.projectId = pid ∧ (q? = none ∨ j.sprintId = q?))) :=
    List.mem_filter.mpr ⟨hmem, by exact decide_eq_true ⟨hpid, hq⟩⟩
  constructor
  · intro hst
    constructor
    · simp only [boardFor, hE]
      rw [List.countP_map]
      have hcong : ∀ s ∈ objectKeys wf1.statuses,
          ((fun c : String × List Issue => decide (i ∈ c.2)) ∘
            (fun s => (s, (issues.filter (fun j =>
              decide (j.projectId = pid ∧ (q? = none ∨ j.sprintId = q?)))).filter
              (fun j => decide (j.status = s))))) s
          = decide (i.status = s) := by
        intro s _
        simp only [Function.comp]
        by_cases hs : i.status = s
        · rw [decide_eq_true hs, decide_eq_true_eq]
          exact List.mem_filter.mpr ⟨hfil, decide_eq_true hs⟩
        · rw [decide_eq_false hs, decide_eq_false]
          intro hx
          exact hs (of_decide_eq_true (List.mem_filter.mp hx).2)
      rw [List.countP_congr (fun x hx => by rw [hcong x hx])]
      simp only [objectKeys]
      rw [countP_dedupFirstAux i.status [] wf1.statuses]
      rw [if_pos ⟨hst, by simp⟩]
    · intro c hc hic
      simp only [boardFor, hE] at hc
      rcases List.mem_map.mp hc with ⟨s, hs, hcs⟩
      subst hcs
      exact (of_decide_eq_true (List.mem_filter.mp hic).2).symm
  · intro hst c hc hic
    simp only [boardFor, hE] at hc
    rcases List.mem_map.mp hc with ⟨s, hs, hcs⟩
    subst hcs
    have h1 : i.status = s := of_decide_eq_true (List.mem_filter.mp hic).2
    exact hst (h1 ▸ mem_dedupFirstAux [] wf1.statuses hs)

/-- C10 witness: the theorem applied at a concrete state — the
in-progress issue of project `p1` appears in exactly one column, keyed
"In Progress". -/
theorem boardFor_partition_witness :
    (boardFor wfEx [issueInProgress] "p1" none).1.countP
      (fun c => decide (issueInProgress ∈ c.2)) = 1 ∧
    ∀ c ∈ (boardFor wfEx [issueInProgress] "p1" none).1,
      issueInProgress ∈ c.2 → c.1 = "In Progress" := by
  have H := (boardFor_partition wfEx [issueInProgress] "p1" none issueInProgress
    (by decide) rfl (Or.inl rfl)).1 (by decide)
  exact ⟨H.1, H.2⟩

/-! ## C9 — registration and the unique-lowercase-email invariant -/

/-- A stored user with an already-lowercase email. -/
def aliceUser : User :=
  { id := "u1", email := "alice@x.com", passwordHash := "h", role := "developer", createdAt := 0 }

/-- C9 failing input, evaluated: the base variant's duplicate check
compares the submitted email **as submitted** against the stored
lowercased emails, so registering "Alice@x.com" while "alice@x.com" is
stored succeeds and stores a second user with the very same lowercase
email — the unique-email invariant is broken instead of the
registration failing.  The serverMaster variant lowercases before
comparing and rejects the same request, as the claim states. -/
theorem registerBase_duplicateEmail_bug :
    (∃ users1, registerBase [aliceUser] "Alice@x.com" "password" none "h2" "u2" 5
        = .ok users1 ∧
      users1.length = 2 ∧
      ∃ h0 : 0 < users1.length, ∃ h1 : 1 < users1.length,
        (users1.get ⟨0, h0⟩).email = "alice@x.com" ∧
        (users1.get ⟨1, h1⟩).email = "alice@x.com") ∧
    registerMaster [aliceUser] "Alice@x.com" "password" none "h2" "u2" 5
      = .error "Email already exists" := by
  constructor
  · exact ⟨_, rfl, rfl, by decide, by decide, by decide, by decide⟩
  · rfl

/-! ## C4 — comprehensive project deletion -/

/-- The project of the C4 failing input. -/
def alphaProject : Project :=
  { id := "p1", name := "Alpha", key := "ALP", ownerId := "u1", createdAt := 0 }

/-- C4 failing input: one project with one issue, and one (arbitrary)
notification in the notifications collection. -/
def c4store : Store :=
  { projects := [alphaProject]
    issues := [issueInProgress]
    sprints := []
    workflows := []
    notifications := [sprintNoteEx]
    attachments := [] }

/-- C4 failing input, evaluated: with any notification present,
`deleteProjectCompletely` raises
`TypeError: issueTitleSet.some is not a function` (a JS `Set` has no
`some` method) after the attachment step and before the issue/sprint/
workflow/project removals — the project and its issue remain, and no
counts are reported.  With an empty notifications collection the same
call performs the full cascade the claim describes. -/
theorem deleteProject_typeError_bug :
    (∃ st1, deleteProjectCompletely c4store "p1"
        = .error ("TypeError: issueTitleSet.some is not a function", st1) ∧
      st1.issues = [issueInProgress] ∧ st1.projects = [alphaProject]) ∧
    (∃ res st2, deleteProjectCompletely { c4store with notifications := [] } "p1"
        = .ok (res, st2) ∧
      res.deletedIssues = 1 ∧ res.deletedSprints = 0 ∧ res.deletedAttachments = 0 ∧
      st2.issues = [] ∧ st2.sprints = [] ∧ st2.workflows = [] ∧ st2.projects = []) := by
  constructor
  · exact ⟨_, rfl, rfl, rfl⟩
  · exact ⟨_, _, rfl, rfl, rfl, rfl, rfl, rfl, rfl, rfl⟩

end Joey
